import Mathlib

/-!
Shallow embedding of the warthog WebAssembly runtime core
(value system, host/instance registry, execution engine), translated from
the Rust sources under src/.  Components of the crate that are referenced
by the sources but are not part of the provided tree (the module data
declarations, the instruction dispatcher, the runtime SyntheticFunc) are
modelled from the specification; each such definition carries a doc
comment starting with the words Modelled from the spec.

Representation conventions:
* Rust Vec-based stacks (operand stacks, the ExecutionStack) push and pop
  at the END of the vector.  We represent every such stack as a Lean list
  whose HEAD is the top of the stack: Vec::push is cons, Vec::pop takes
  the head, and Vec iteration order is the REVERSE of our list order.
  In particular iter().rev() over a Vec corresponds to the identity
  traversal of our list.
* Machine integers are Nat (unsigned payloads, lengths, indices) or Int
  (the signed i32 constant of a data-segment offset expression); the
  i32-to-usize cast is made explicit.
* Float payloads are carried as their raw bit patterns (Nat); no claim
  in this development depends on float arithmetic.
* Rust panics (unchecked indexing, unreachable, exiting the last frame)
  are explicit result constructors, distinct from recoverable errors.
-/

namespace Warthog

/-! ## Value and type system (src/value/mod.rs) -/

/-- Value types, from the ValType enum in src/value/mod.rs. -/
inductive ValType where
  | Nil
  | I32
  | I64
  | F32
  | F64
deriving DecidableEq, Repr

/-- Display strings of value types (the Display impl in src/value/mod.rs),
used when the engine formats trap messages. -/
def ValType.display : ValType → String
  | .Nil => "nil"
  | .I32 => "i32"
  | .I64 => "i64"
  | .F32 => "f32"
  | .F64 => "f64"

/-- Runtime values, from the Value enum in src/value/mod.rs.  Integer
payloads are the unsigned bit patterns (u32 and u64 in the source); float
payloads are raw bit patterns. -/
inductive Value where
  | Nil
  | I32 (bits : Nat)
  | I64 (bits : Nat)
  | F32 (bits : Nat)
  | F64 (bits : Nat)
deriving DecidableEq, Repr

/-- Value::typ from src/value/mod.rs. -/
def Value.typ : Value → ValType
  | .Nil => ValType.Nil
  | .I32 _ => ValType.I32
  | .I64 _ => ValType.I64
  | .F32 _ => ValType.F32
  | .F64 _ => ValType.F64

/-- Modelled from the spec: the TrapCause signals named in the FromValue
impls of src/value/mod.rs (the declaring enum lives in the crate root,
which is not part of the provided tree).  Only the two constructors used
by value coercion are modelled. -/
inductive TrapCause where
  | StackUnderflow
  | TypeMismatch (expected : ValType) (actual : ValType)
deriving DecidableEq, Repr

/-- The six native target shapes for which src/value/mod.rs instantiates
the impl_from_value macro (u32, u64, i32, i64, f32, f64). -/
inductive NativeTarget where
  | u32
  | u64
  | i32
  | i64
  | f32
  | f64
deriving DecidableEq, Repr

/-- The Value variant each native target matches, that is the ValType
substituted for the macro parameter in src/value/mod.rs lines 145-150. -/
def NativeTarget.valtype : NativeTarget → ValType
  | .u32 => ValType.I32
  | .i32 => ValType.I32
  | .u64 => ValType.I64
  | .i64 => ValType.I64
  | .f32 => ValType.F32
  | .f64 => ValType.F64

/-- FromValue::from_value, the expansion of the impl_from_value macro in
src/value/mod.rs for each of the six targets.  The match arms are, in
source order: the matching variant yields its payload (the unsigned-to-
signed reinterpretations of the source are identities on bit patterns),
Value::Nil yields StackUnderflow, and any other variant yields
TypeMismatch with the target type as expected and the value type as
actual. -/
def from_value : NativeTarget → Value → Except TrapCause Nat
  | .u32, .I32 x => .ok x
  | .i32, .I32 x => .ok x
  | .u64, .I64 x => .ok x
  | .i64, .I64 x => .ok x
  | .f32, .F32 x => .ok x
  | .f64, .F64 x => .ok x
  | _, .Nil => .error TrapCause.StackUnderflow
  | t, v => .error (TrapCause.TypeMismatch t.valtype v.typ)

/-! ## Module data (the module declarations are consumed by src/runtime/host.rs
and src/interp/thread.rs; the declaring files are not part of the provided
tree, so the shapes are modelled from the spec and from every use site). -/

/-- Modelled from the spec: a function type signature, ordered parameter
types and ordered result types. -/
structure FuncType where
  params : List ValType
  results : List ValType
deriving DecidableEq, Repr

/-- Modelled from the spec: a memory type, minimum size and optional
maximum size (MemoryType::new in src/hosting/external.rs). -/
structure MemoryType where
  min : Nat
  max : Option Nat
deriving DecidableEq, Repr

/-- Modelled from the spec: the instruction forms exercised by the
provided sources: ConstI32 (matched by Host::instantiate_data in
src/runtime/host.rs), Const carrying a value and Call carrying a function
index (built by src/text/parser/instruction.rs). -/
inductive Instruction where
  | ConstI32 (val : Int)
  | Const (v : Value)
  | Call (idx : Nat)
deriving DecidableEq, Repr

/-- Modelled from the spec: an expression is an instruction sequence
(Expr::instructions is read by Thread::eval in src/interp/thread.rs). -/
structure Expr where
  instructions : List Instruction
deriving DecidableEq, Repr

/-- Modelled from the spec: a code body, local-variable type declarations
plus an instruction sequence (code.locals() and code.body() are read by
Thread::invoke in src/interp/thread.rs). -/
structure FuncCode where
  locals : List ValType
  body : List Instruction
deriving DecidableEq, Repr

/-- Modelled from the spec: an import names a source module and an item
(import.module and import.name are read by Host::resolve_imports in
src/runtime/host.rs; the declared kind is ignored by import resolution,
which matches on the kind of the export it finds). -/
structure ImportDecl where
  module : String
  name : String
deriving DecidableEq, Repr

/-- Modelled from the spec: the description of an exported member, as
matched by Host::export_module in src/runtime/host.rs: a function index,
a memory type, or another kind that export_module skips. -/
inductive MemberDesc where
  | Function (idx : Nat)
  | Memory (typ : MemoryType)
  | Other
deriving DecidableEq, Repr

/-- Modelled from the spec: an export, a name plus a member description
(export.name and export.description are read by Host::export_module). -/
structure Export where
  name : String
  description : MemberDesc
deriving DecidableEq, Repr

/-- Modelled from the spec: a data segment, a target memory index, an
offset expression and a raw byte payload (data.index, data.expr and
data.init are read by Host::instantiate_data in src/runtime/host.rs). -/
structure DataSegment where
  index : Nat
  expr : List Instruction
  init : List Nat
deriving DecidableEq, Repr

/-- Modelled from the spec: the decoded module consumed by
Host::instantiate: a name, type signatures, per-function type indices
matched positionally with code bodies, imports, exports and data
segments. -/
structure Module where
  name : String
  types : List FuncType
  funcs : List Nat
  code : List FuncCode
  imports : List ImportDecl
  exports : List Export
  data : List DataSegment
deriving DecidableEq, Repr

/-- The i32-to-usize cast performed on a data-segment offset constant
(val as usize in Host::instantiate_data): sign extension to the 64-bit
machine word, then unsigned reinterpretation. -/
def i32AsUsize (v : Int) : Nat := (v % (2 : Int) ^ 64).toNat

/-! ## Execution stack (src/interp/stack.rs) -/

/-- A stack frame, from src/interp/stack.rs: the owning module address and
the optional address of the executing function.  Addresses are the
zero-based arena indices of src/runtime/mod.rs. -/
structure StackFrame where
  module : Nat
  func : Option Nat
deriving DecidableEq, Repr

/-- A stack trace, from src/interp/stack.rs: a snapshot list of frames.
ExecutionStack::trace collects the frames top-first (innermost first). -/
structure StackTrace where
  frames : List StackFrame
deriving DecidableEq, Repr

/-- An execution context, from src/interp/stack.rs: the operand stack for
one invocation (head of the list is the top of the Vec), the locals in
scope and the frame locating it. -/
structure ExecutionContext where
  values : List Value
  locals : List Value
  frame : StackFrame
deriving DecidableEq, Repr

/-- ExecutionContext::new: a fresh context has an empty operand stack. -/
def ExecutionContext.new (frame : StackFrame) (locals : List Value) :
    ExecutionContext :=
  { values := [], locals := locals, frame := frame }

/-- ExecutionContext::push from src/interp/stack.rs: values that are not
the Nil variant are pushed; a Nil value is dropped (the source compares
against Value::Nil, which is a pure variant-tag test). -/
def ExecutionContext.push (c : ExecutionContext) (v : Value) :
    ExecutionContext :=
  match v with
  | Value.Nil => c
  | v => { c with values := v :: c.values }

/-- ExecutionContext::pop from src/interp/stack.rs: Vec::pop, returning
the popped top value (if any) together with the updated context. -/
def ExecutionContext.pop (c : ExecutionContext) :
    Option Value × ExecutionContext :=
  (c.values.head?, { c with values := c.values.tail })

/-- ExecutionContext::is_empty from src/interp/stack.rs. -/
def ExecutionContext.is_empty (c : ExecutionContext) : Bool :=
  c.values.isEmpty

/-- The ExecutionStack of src/interp/stack.rs is a Vec of contexts with
the current context last; per our convention the head of the list is the
current (innermost) context. -/
def ExecutionStack := List ExecutionContext

instance : DecidableEq ExecutionStack :=
  inferInstanceAs (DecidableEq (List ExecutionContext))

/-- ExecutionStack::enter: push a fresh context for the given module,
optional function and locals. -/
def ExecutionStack.enter (s : ExecutionStack) (module : Nat)
    (func : Option Nat) (locals : List Value) : ExecutionStack :=
  ExecutionContext.new (StackFrame.mk module func) locals :: s

/-- ExecutionStack::exit: panics (none) when exactly one context remains;
otherwise pops the current context.  Vec::pop on an already empty stack
is a silent no-op in the source, hence the empty case. -/
def ExecutionStack.exit (s : ExecutionStack) : Option ExecutionStack :=
  match s with
  | [_] => none
  | [] => some []
  | _ :: rest => some rest

/-- ExecutionStack::trace: the source iterates the Vec in reverse (top
frame first) cloning each frame; on our top-first representation that is
the direct traversal. -/
def ExecutionStack.trace (s : ExecutionStack) : StackTrace :=
  StackTrace.mk (s.map ExecutionContext.frame)

/-! ## Traps and threads (src/interp/thread.rs) -/

/-- Modelled from the spec: a Trap carries a message and an optional
stack-trace snapshot (Trap::new is called by Thread::throw with the
message and Some(trace); the declaring file is not part of the provided
tree). -/
structure Trap where
  message : String
  trace : Option StackTrace
deriving DecidableEq, Repr

/-- A thread owns an execution stack (src/interp/thread.rs). -/
structure Thread where
  stack : ExecutionStack
deriving DecidableEq

/-- Thread::throw from src/interp/thread.rs: builds a Trap carrying the
message and a snapshot of the current stack. -/
def Thread.throw (t : Thread) (message : String) : Trap :=
  Trap.mk message (some t.stack.trace)

/-- Thread::push from src/interp/thread.rs: pushes onto the current
context; current_mut panics (none) when the stack has no context. -/
def Thread.pushV (t : Thread) (v : Value) : Option Thread :=
  match t.stack with
  | [] => none
  | c :: rest => some (Thread.mk (c.push v :: rest))

/-- Thread::pop from src/interp/thread.rs: pops from the current context,
trapping with a stack-underflow message when the operand stack is empty;
current_mut panics (outer none) when the stack has no context. -/
def Thread.popV (t : Thread) : Option (Except Trap Value × Thread) :=
  match t.stack with
  | [] => none
  | c :: rest =>
    match c.pop with
    | (some v, c') => some (.ok v, Thread.mk (c' :: rest))
    | (none, _) => some (.error (t.throw "Stack underflow!"), t)

/-! ## Host and instance registry (src/runtime/host.rs)

Arena addresses (ModuleAddr, FuncAddr, MemAddr from src/runtime/mod.rs)
are plain zero-based indices; we use Nat directly. -/

/-- Modelled from the spec: load/link-time errors produced by the host
(the declaring enum lives in the crate root, which is not part of the
provided tree; the constructors are the ones built in
src/runtime/host.rs). -/
inductive Error where
  | InvalidModule
  | ModuleNotFound (module : String)
  | ExportNotFound (module : String) (name : String)
deriving DecidableEq, Repr

/-- Modelled from the spec: a memory instance is one linear byte store
with current contents and an optional maximum length (the declaring file
is not part of the provided tree; memory_mut and len are used by
Host::instantiate_data). -/
structure MemInst where
  data : List Nat
  max : Option Nat
deriving DecidableEq, Repr

/-- Modelled from the spec: MemInst::from_type allocates a memory sized
from its declared type; sizes are in 64 KiB pages. -/
def MemInst.from_type (typ : MemoryType) : MemInst :=
  MemInst.mk (List.replicate (typ.min * 65536) 0) typ.max

/-- Modelled from the spec: the referent of an export, a function address
or a memory address (matched by Host::resolve_imports). -/
inductive ExternVal where
  | Func (addr : Nat)
  | Mem (addr : Nat)
deriving DecidableEq, Repr

/-- Modelled from the spec: an export instance, a name bound to an extern
value (ExportInst::func and ExportInst::mem are built by
Host::export_module). -/
structure ExportInst where
  name : String
  value : ExternVal
deriving DecidableEq, Repr

/-- Modelled from the spec: a module instance: name, resolved function
addresses, resolved memory addresses and the export table
(ModuleInst::new in Host::instantiate). -/
structure ModuleInst where
  name : String
  funcs : List Nat
  mems : List Nat
  exports : List ExportInst
deriving DecidableEq, Repr

/-- Modelled from the spec: ModuleInst::find_export looks an export up by
exact name, first match (linear lookup per the spec). -/
def ModuleInst.find_export (m : ModuleInst) (name : String) :
    Option ExportInst :=
  m.exports.find? (fun e => e.name = name)

/-- Modelled from the spec: a host-native callable takes the marshalled
argument values and produces result values or a trap (the HostFunc shape
of the spec; the host and thread handles passed in the source are not
needed by the properties verified here). -/
def HostFunc := List Value → Except Trap (List Value)

/-- The implementation variant of a function instance, matched by
Thread::invoke in src/interp/thread.rs: a host-supplied synthetic
callable, or a local code body owned by a module instance. -/
inductive FuncImpl where
  | Synthetic (f : HostFunc)
  | Local (code : FuncCode) (module : Nat)

/-- Modelled from the spec: a function instance carries its declared type
signature, its owning module address and its implementation (typ, module
and imp are read by Thread::invoke; FuncInst::local is built by
Host::instantiate_funcs). -/
structure FuncInst where
  typ : FuncType
  module : Nat
  imp : FuncImpl

/-- FuncInst::local from Host::instantiate_funcs. -/
def FuncInst.local (typ : FuncType) (module : Nat) (body : FuncCode) :
    FuncInst :=
  FuncInst.mk typ module (FuncImpl.Local body module)

/-- The Host of src/runtime/host.rs: three append-only arenas. -/
structure Host where
  modules : List ModuleInst
  funcs : List FuncInst
  mems : List MemInst

/-- Host::new. -/
def Host.new : Host := Host.mk [] [] []

/-- Host::find_module: position of the first registered module instance
with the given exact name. -/
def Host.find_module (h : Host) (name : String) : Option Nat :=
  h.modules.findIdx? (fun m => m.name = name)

/-- Result of a host operation that can hit an unchecked-indexing panic
or return a load/link error. -/
inductive HRes (α : Type) where
  | panics
  | err (e : Error)
  | ok (a : α)

/-- Host::resolve_imports from src/runtime/host.rs: for each import in
declaration order, find a registered module by exact name (else
ModuleNotFound), look up the named export (else ExportNotFound, carrying
the found module instance name), and append the resolved address to the
function or memory table according to the kind of the export found.  The
unchecked arena access of Host::get_module inside Host::resolve_import is
the panics case. -/
def Host.resolve_imports (h : Host) :
    List ImportDecl → HRes (List Nat × List Nat)
  | [] => .ok ([], [])
  | imp :: rest =>
    match h.find_module imp.module with
    | none => .err (Error.ModuleNotFound imp.module)
    | some maddr =>
      match h.modules[maddr]? with
      | none => .panics
      | some minst =>
        match minst.find_export imp.name with
        | none => .err (Error.ExportNotFound minst.name imp.name)
        | some ex =>
          match h.resolve_imports rest with
          | .panics => .panics
          | .err e => .err e
          | .ok (fs, ms) =>
            match ex.value with
            | ExternVal.Func fa => .ok (fa :: fs, ms)
            | ExternVal.Mem ma => .ok (fs, ma :: ms)

/-- Host::instantiate_funcs from src/runtime/host.rs: each (code index,
type index) pair, paired positionally, becomes a Local function instance
appended to the function arena; the new addresses are collected in
declaration order.  The unchecked indexing into module.types() and
module.code() is the none (panic) case. -/
def Host.instantiate_funcs (h : Host) (instanceAddr : Nat)
    (types : List FuncType) :
    List Nat → List FuncCode → Option (List Nat × Host)
  | [], _ => some ([], h)
  | tid :: tids, code =>
    match types[tid]?, code.head? with
    | some typ, some body =>
      let addr := h.funcs.length
      let h' := Host.mk h.modules
        (h.funcs ++ [FuncInst.local typ instanceAddr body]) h.mems
      match h'.instantiate_funcs instanceAddr types tids code.tail with
      | none => none
      | some (addrs, h'') => some (addr :: addrs, h'')
    | _, _ => none

/-- Overwrite the byte range starting at off with the given bytes
(the copy_from_slice call of Host::instantiate_data). -/
def writeBytes (d : List Nat) (off : Nat) (init : List Nat) : List Nat :=
  d.take off ++ init ++ d.drop (off + init.length)

/-- Result of one data-segment instantiation step or of the whole data
loop, carrying the memory arena reached so far (earlier writes are not
rolled back). -/
inductive DRes where
  | panics
  | err (e : Error) (cur : List MemInst)
  | ok (cur : List MemInst)
deriving DecidableEq, Repr

/-- One iteration of the loop of Host::instantiate_data in
src/runtime/host.rs: the offset expression must be exactly one ConstI32
(else InvalidModule); the target memory address is the unchecked
mems[data.index] (panics when out of range), the memory the unchecked
arena slot (panics when out of range); then the source computes
end = offset + init.len() and rejects with InvalidModule when
offset + end exceeds the current memory length, else copies the payload
over the range offset..end. -/
def dataStep (hm : List MemInst) (addrs : List Nat) (s : DataSegment) :
    DRes :=
  match s.expr with
  | [Instruction.ConstI32 val] =>
    let off := i32AsUsize val
    match addrs[s.index]? with
    | none => .panics
    | some a =>
      match hm[a]? with
      | none => .panics
      | some mem =>
        let endIdx := off + s.init.length
        if off + endIdx > mem.data.length then .err Error.InvalidModule hm
        else .ok (hm.set a (MemInst.mk (writeBytes mem.data off s.init) mem.max))
  | _ => .err Error.InvalidModule hm

/-- Host::instantiate_data from src/runtime/host.rs: the per-segment loop,
stopping at the first error and keeping the writes already made. -/
def instantiate_data (hm : List MemInst) (addrs : List Nat) :
    List DataSegment → DRes
  | [] => .ok hm
  | s :: rest =>
    match dataStep hm addrs s with
    | .ok hm' => instantiate_data hm' addrs rest
    | .err e cur => .err e cur
    | .panics => .panics

/-- Host::export_module from src/runtime/host.rs: function exports bind
the unchecked funcs[func_idx] (none models the panic on an out-of-range
index); memory exports allocate a new memory instance in the arena; other
kinds are skipped. -/
def Host.export_module (h : Host) (funcs : List Nat) :
    List Export → Option (List ExportInst × Host)
  | [] => some ([], h)
  | e :: rest =>
    match e.description with
    | MemberDesc.Function idx =>
      match funcs[idx]? with
      | none => none
      | some fa =>
        match h.export_module funcs rest with
        | none => none
        | some (es, h') => some (ExportInst.mk e.name (ExternVal.Func fa) :: es, h')
    | MemberDesc.Memory mt =>
      let ma := h.mems.length
      let h' := Host.mk h.modules h.funcs (h.mems ++ [MemInst.from_type mt])
      match h'.export_module funcs rest with
      | none => none
      | some (es, h'') => some (ExportInst.mk e.name (ExternVal.Mem ma) :: es, h'')
    | MemberDesc.Other => h.export_module funcs rest

/-- Result of Host::instantiate: a panic, or an error or the new module
address, each with the host state at that point (entries appended before
a failure are not rolled back). -/
inductive IRes where
  | panics
  | err (e : Error) (h : Host)
  | ok (addr : Nat) (h : Host)

/-- Host::instantiate from src/runtime/host.rs: resolve imports, then
instantiate local functions, then instantiate data segments against
the import-resolved memory table, then compute exports, register the
module instance (whose memory table is the import-resolved one). -/
def Host.instantiate (h : Host) (m : Module) : IRes :=
  let maddr := h.modules.length
  match h.resolve_imports m.imports with
  | .panics => .panics
  | .err e => .err e h
  | .ok (fs, ms) =>
    match h.instantiate_funcs maddr m.types m.funcs m.code with
    | none => .panics
    | some (lfs, h₁) =>
      let funcs := fs ++ lfs
      match instantiate_data h₁.mems ms m.data with
      | .panics => .panics
      | .err e cur => .err e (Host.mk h₁.modules h₁.funcs cur)
      | .ok mems' =>
        let h₂ := Host.mk h₁.modules h₁.funcs mems'
        match h₂.export_module funcs m.exports with
        | none => .panics
        | some (exps, h₃) =>
          .ok maddr (Host.mk
            (h₃.modules ++ [ModuleInst.mk m.name funcs ms exps])
            h₃.funcs h₃.mems)

/-! ## Execution engine (src/interp/thread.rs)

The instruction dispatcher (the exec module called by Thread::run) is not
part of the provided tree; its per-instruction behaviour is modelled from
the spec.  Because a call instruction recursively drives Thread::invoke,
the interpreter functions take an explicit fuel argument; exhausting the
fuel yields the div outcome, about which nothing is claimed. -/

/-- Outcome of an engine operation: fuel exhaustion, a panic, or the
source function returning a Result together with the thread state at
return. -/
instance {ε α : Type} [DecidableEq ε] [DecidableEq α] :
    DecidableEq (Except ε α)
  | .error a, .error b =>
    if h : a = b then isTrue (by rw [h]) else
      isFalse (fun hc => h (by cases hc; rfl))
  | .ok a, .ok b =>
    if h : a = b then isTrue (by rw [h]) else
      isFalse (fun hc => h (by cases hc; rfl))
  | .error _, .ok _ => isFalse (fun hc => by cases hc)
  | .ok _, .error _ => isFalse (fun hc => by cases hc)

inductive ERes (α : Type) where
  | div
  | panics
  | out (r : Except Trap α) (t : Thread)
deriving DecidableEq

/-- The trap message format of the typed pop loops of Thread::invoke in
src/interp/thread.rs. -/
def typeMismatchMsg (expected actual : ValType) : String :=
  "Type mismatch. Expected: " ++ expected.display ++ ", Actual: " ++
    actual.display

/-- Outcome of a typed pop loop: a panic (no current frame), an early
trap return, or the popped values in iteration order with the thread
after the pops. -/
inductive PopRes where
  | panics
  | trapped (e : Trap) (t : Thread)
  | popped (vals : List Value) (t : Thread)
deriving DecidableEq

/-- The typed pop loop of Thread::invoke in src/interp/thread.rs (used
once over the declared parameter types and once over the declared result
types): pop one operand per declared type from the current frame, most
recently pushed first; a value of the wrong type traps with the type
mismatch message, an exhausted operand stack traps with the stack
underflow message; popped values are collected in iteration order. -/
def popTyped : List ValType → Thread → PopRes
  | [], t => .popped [] t
  | ty :: rest, t =>
    match t.stack with
    | [] => .panics
    | c :: cs =>
      match c.values with
      | [] => .trapped (t.throw "Stack underflow!") t
      | v :: vs =>
        let t' := Thread.mk (ExecutionContext.mk vs c.locals c.frame :: cs)
        if v.typ = ty then
          match popTyped rest t' with
          | .panics => .panics
          | .trapped e t'' => .trapped e t''
          | .popped vals t'' => .popped (v :: vals) t''
        else .trapped (t'.throw (typeMismatchMsg ty v.typ)) t'

/-- The locals initialization of Thread::invoke: one zero value per
declared local type; a declared Nil local hits unreachable (none). -/
def zeroLocals : List ValType → Option (List Value)
  | [] => some []
  | ValType.Nil :: _ => none
  | ValType.I32 :: rest => (zeroLocals rest).map (Value.I32 0 :: ·)
  | ValType.I64 :: rest => (zeroLocals rest).map (Value.I64 0 :: ·)
  | ValType.F32 :: rest => (zeroLocals rest).map (Value.F32 0 :: ·)
  | ValType.F64 :: rest => (zeroLocals rest).map (Value.F64 0 :: ·)

/-- Modelled from the spec: after a call instruction, the result sequence
of the invoked function becomes the call's value contribution to the
caller's operand stack; we push the results so that the first declared
result ends on top. -/
def pushResults (t : Thread) : List Value → Option Thread
  | [] => some t
  | v :: vs =>
    match pushResults t vs with
    | none => none
    | some t' => t'.pushV v

mutual

/-- Thread::run from src/interp/thread.rs: execute a decoded sequence one
instruction at a time, stopping at the first trap. -/
def runF : Nat → Host → Thread → List Instruction → ERes Unit
  | _, _, t, [] => ERes.out (Except.ok ()) t
  | 0, _, _, _ :: _ => ERes.div
  | fuel + 1, h, t, i :: rest =>
    match execF fuel h t i with
    | .div => .div
    | .panics => .panics
    | .out (Except.error e) t' => .out (Except.error e) t'
    | .out (Except.ok _) t' => runF fuel h t' rest

/-- Modelled from the spec: the per-instruction dispatch (the exec module
is not part of the provided tree).  A constant pushes its value onto the
current frame; a call instruction resolves the callee through the current
frame's module instance function table and drives the same invoke
contract, its results going back to the caller's operand stack. -/
def execF : Nat → Host → Thread → Instruction → ERes Unit
  | _, _, t, Instruction.Const v =>
    match t.pushV v with
    | none => ERes.panics
    | some t' => ERes.out (Except.ok ()) t'
  | _, _, t, Instruction.ConstI32 v =>
    match t.pushV (Value.I32 (v % (2 : Int) ^ 32).toNat) with
    | none => ERes.panics
    | some t' => ERes.out (Except.ok ()) t'
  | 0, _, _, Instruction.Call _ => ERes.div
  | fuel + 1, h, t, Instruction.Call idx =>
    match t.stack.head? with
    | none => ERes.panics
    | some c =>
      match h.modules[c.frame.module]? with
      | none => ERes.panics
      | some minst =>
        match minst.funcs[idx]? with
        | none => ERes.panics
        | some fa =>
          match invokeF fuel h t fa with
          | .div => .div
          | .panics => .panics
          | .out (Except.error e) t' => .out (Except.error e) t'
          | .out (Except.ok res) t' =>
            match pushResults t' res with
            | none => ERes.panics
            | some t'' => ERes.out (Except.ok ()) t''

/-- Thread::invoke from src/interp/thread.rs.  A synthetic function pops
one value per declared parameter and delegates to the host callable (the
runtime synthetic marshaling is modelled from the spec, reusing the typed
pop loop).  A local function pops one operand per declared parameter with
type checking, assembles locals as parameters followed by zero-initialized
declared locals, enters a frame tagged with the owning module and the
function address, runs the body (exiting the frame when the body traps),
then pops one operand per declared result with type checking (the source
returns early here without exiting the frame), requires the callee frame
empty (else traps), and exits the frame before returning on the remaining
paths.  Host::get_func performs unchecked arena indexing (panics). -/
def invokeF : Nat → Host → Thread → Nat → ERes (List Value)
  | 0, _, _, _ => ERes.div
  | fuel + 1, h, t, fa =>
    match h.funcs[fa]? with
    | none => ERes.panics
    | some fi =>
      match fi.imp with
      | FuncImpl.Synthetic f =>
        match popTyped fi.typ.params t with
        | .panics => ERes.panics
        | .trapped e t' => ERes.out (Except.error e) t'
        | .popped vals t' =>
          match f vals with
          | Except.error e => ERes.out (Except.error e) t'
          | Except.ok res => ERes.out (Except.ok res) t'
      | FuncImpl.Local code _ =>
        match popTyped fi.typ.params t with
        | .panics => ERes.panics
        | .trapped e t' => ERes.out (Except.error e) t'
        | .popped args t' =>
          match zeroLocals code.locals with
          | none => ERes.panics
          | some zs =>
            let t₂ := Thread.mk (t'.stack.enter fi.module (some fa) (args ++ zs))
            match runF fuel h t₂ code.body with
            | .div => ERes.div
            | .panics => ERes.panics
            | .out (Except.error e) t₃ =>
              match t₃.stack.exit with
              | none => ERes.panics
              | some s₄ => ERes.out (Except.error e) (Thread.mk s₄)
            | .out (Except.ok _) t₃ =>
              match popTyped fi.typ.results t₃ with
              | .panics => ERes.panics
              | .trapped e t₄ => ERes.out (Except.error e) t₄
              | .popped results t₄ =>
                match t₄.stack.head? with
                | none => ERes.panics
                | some c₄ =>
                  if c₄.is_empty then
                    match t₄.stack.exit with
                    | none => ERes.panics
                    | some s₅ => ERes.out (Except.ok results) (Thread.mk s₅)
                  else
                    let e := t₄.throw
                      "Stack is not empty at end of function invocation!"
                    match t₄.stack.exit with
                    | none => ERes.panics
                    | some s₅ => ERes.out (Except.error e) (Thread.mk s₅)

end

/-- Thread::eval from src/interp/thread.rs: enter a frame for the module
with no function and no locals, run the expression; when the run traps
the frame is exited and the trap returned; when the run succeeds the
single result is popped (the source returns a pop failure immediately,
without exiting the frame); then the frame must be empty (else a trap),
and the frame is exited before returning. -/
def evalF (fuel : Nat) (h : Host) (t : Thread) (maddr : Nat) (e : Expr) :
    ERes Value :=
  let t₁ := Thread.mk (t.stack.enter maddr none [])
  match runF fuel h t₁ e.instructions with
  | .div => ERes.div
  | .panics => ERes.panics
  | .out (Except.error tr) t₂ =>
    match t₂.stack.exit with
    | none => ERes.panics
    | some s₃ => ERes.out (Except.error tr) (Thread.mk s₃)
  | .out (Except.ok _) t₂ =>
    match t₂.popV with
    | none => ERes.panics
    | some (Except.error tr, t₃) => ERes.out (Except.error tr) t₃
    | some (Except.ok v, t₃) =>
      match t₃.stack.head? with
      | none => ERes.panics
      | some c₃ =>
        if c₃.is_empty then
          match t₃.stack.exit with
          | none => ERes.panics
          | some s₄ => ERes.out (Except.ok v) (Thread.mk s₄)
        else
          let tr := t₃.throw "Stack is not empty at end of function invocation!"
          match t₃.stack.exit with
          | none => ERes.panics
          | some s₄ => ERes.out (Except.error tr) (Thread.mk s₄)

/-- The argument evaluation loop of Thread::call in src/interp/thread.rs,
after reversal: run each expression in the given order, stopping at the
first trap (the source returns such a trap immediately, without exiting
the frame entered by call). -/
def evalArgsGo (fuel : Nat) (h : Host) : Thread → List Expr → ERes Unit
  | t, [] => ERes.out (Except.ok ()) t
  | t, e :: rest =>
    match runF fuel h t e.instructions with
    | .div => .div
    | .panics => .panics
    | .out (Except.error tr) t' => .out (Except.error tr) t'
    | .out (Except.ok _) t' => evalArgsGo fuel h t' rest

/-- The argument evaluation phase of Thread::call: the expressions are
iterated in reverse declaration order. -/
def evalArgsF (fuel : Nat) (h : Host) (t : Thread) (exprs : List Expr) :
    ERes Unit :=
  evalArgsGo fuel h t exprs.reverse

/-- Thread::call from src/interp/thread.rs: enter an intermediate frame,
evaluate the argument expressions in reverse declaration order (a trap
during this phase returns immediately, without exiting the frame), invoke
the function, then exit the intermediate frame and return the invoke
result. -/
def callF (fuel : Nat) (h : Host) (t : Thread) (maddr : Nat) (fa : Nat)
    (exprs : List Expr) : ERes (List Value) :=
  let t₁ := Thread.mk (t.stack.enter maddr none [])
  match evalArgsF fuel h t₁ exprs with
  | .div => ERes.div
  | .panics => ERes.panics
  | .out (Except.error tr) t₂ => ERes.out (Except.error tr) t₂
  | .out (Except.ok _) t₂ =>
    match invokeF fuel h t₂ fa with
    | .div => ERes.div
    | .panics => ERes.panics
    | .out r t₃ =>
      match t₃.stack.exit with
      | none => ERes.panics
      | some s₄ => ERes.out r (Thread.mk s₄)

/-! ## Verified properties -/

/-- C8: for every value and every native target type, coercion through
FromValue succeeds exactly when the value's tag matches the target's
value category; a disagreeing non-Nil tag yields TypeMismatch with the
target's type as expected and the value's type as actual; StackUnderflow
is yielded exactly when no value is present (the Nil placeholder), so the
two failure kinds are never confused. -/
theorem from_value_failure_kinds (tgt : NativeTarget) (v : Value) :
    ((∃ x, from_value tgt v = Except.ok x) ↔ v.typ = tgt.valtype) ∧
    (from_value tgt v = Except.error TrapCause.StackUnderflow ↔
      v = Value.Nil) ∧
    (v ≠ Value.Nil → v.typ ≠ tgt.valtype →
      from_value tgt v =
        Except.error (TrapCause.TypeMismatch tgt.valtype v.typ)) := by
  cases tgt <;> cases v <;>
    simp [from_value, Value.typ, NativeTarget.valtype]

/-- Witness for C8: coercing an F32 value to the u32 shape fails with
TypeMismatch expecting I32 and reporting F32, not with StackUnderflow. -/
theorem from_value_failure_kinds_witness :
    from_value NativeTarget.u32 (Value.F32 0) =
      Except.error (TrapCause.TypeMismatch ValType.I32 ValType.F32) :=
  (from_value_failure_kinds NativeTarget.u32 (Value.F32 0)).2.2
    (by decide) (by decide)

/-- An operand-stack operation, for quantifying over all push and pop
sequences on an execution context. -/
inductive StackOp where
  | pushOp (v : Value)
  | popOp

/-- Apply one operand-stack operation to an execution context. -/
def applyOp (c : ExecutionContext) : StackOp → ExecutionContext
  | .pushOp v => c.push v
  | .popOp => (c.pop).2

/-- Apply a sequence of operand-stack operations. -/
def applyOps (c : ExecutionContext) (ops : List StackOp) :
    ExecutionContext :=
  ops.foldl applyOp c

lemma nil_not_in_values_applyOps (ops : List StackOp)
    (c : ExecutionContext) (hc : Value.Nil ∉ c.values) :
    Value.Nil ∉ (applyOps c ops).values := by
  induction ops generalizing c with
  | nil => exact hc
  | cons op rest ih =>
    apply ih
    cases op with
    | pushOp v =>
      cases v <;> simp_all [applyOp, ExecutionContext.push]
    | popOp =>
      simp only [applyOp, ExecutionContext.pop]
      exact fun hmem => hc (List.mem_of_mem_tail hmem)

/-- C9: pushing a Nil value leaves any execution context unchanged, and
on every context reachable from a fresh one by any sequence of push and
pop operations a pop never returns Nil. -/
theorem operand_stack_never_holds_nil :
    (∀ c : ExecutionContext, c.push Value.Nil = c) ∧
    (∀ (f : StackFrame) (locals : List Value) (ops : List StackOp),
      ((applyOps (ExecutionContext.new f locals) ops).pop).1 ≠
        some Value.Nil) := by
  constructor
  · intro c; rfl
  · intro f locals ops hpop
    have hnil : Value.Nil ∉ (ExecutionContext.new f locals).values := by
      simp [ExecutionContext.new]
    have h := nil_not_in_values_applyOps ops _ hnil
    have hhead :
        (applyOps (ExecutionContext.new f locals) ops).values.head? =
          some Value.Nil := hpop
    exact h (List.mem_of_mem_head? hhead)

/-- Witness for C9: a concrete push/pop sequence, including an attempted
Nil push, on which the next pop does not return Nil. -/
theorem operand_stack_never_holds_nil_witness :
    ((applyOps (ExecutionContext.new (StackFrame.mk 0 none) [])
        [StackOp.pushOp (Value.I32 5), StackOp.pushOp Value.Nil,
          StackOp.popOp]).pop).1 ≠ some Value.Nil :=
  operand_stack_never_holds_nil.2 (StackFrame.mk 0 none) []
    [StackOp.pushOp (Value.I32 5), StackOp.pushOp Value.Nil, StackOp.popOp]

/-- C7: a Trap created by Thread::throw carries the message and a
snapshot of the stack frames ordered innermost first: the first entry of
the snapshot is the frame of the context on top of the ExecutionStack at
throw time and the last entry is the frame of the bottom-most context.
The snapshot is a value in the embedding, so later pushes or pops on the
stack cannot change an already-built Trap. -/
theorem throw_trace_innermost_first (t : Thread) (c : ExecutionContext)
    (rest : List ExecutionContext) (hstk : t.stack = c :: rest)
    (msg : String) :
    t.throw msg =
      Trap.mk msg
        (some (StackTrace.mk ((c :: rest).map ExecutionContext.frame))) ∧
    t.stack.trace.frames.head? = some c.frame ∧
    t.stack.trace.frames.getLast? =
      some (((c :: rest).getLast (List.cons_ne_nil c rest)).frame) := by
  refine ⟨?_, ?_, ?_⟩
  · simp [Thread.throw, ExecutionStack.trace, hstk]
  · simp [ExecutionStack.trace, hstk]
  · rw [hstk]
    show ((c :: rest).map ExecutionContext.frame).getLast? = _
    rw [List.getLast?_map]
    rw [List.getLast?_eq_getLast _ (List.cons_ne_nil c rest)]
    rfl

/-- Witness for C7: with an outer frame for function A below an inner
frame for function B, the trace built at throw time lists B first and A
last. -/
theorem throw_trace_innermost_first_witness :
    (Thread.mk [ExecutionContext.mk [] [] (StackFrame.mk 0 (some 1)),
        ExecutionContext.mk [] [] (StackFrame.mk 0 (some 0))]).throw "t" =
      Trap.mk "t" (some (StackTrace.mk
        [StackFrame.mk 0 (some 1), StackFrame.mk 0 (some 0)])) ∧
    (Thread.mk [ExecutionContext.mk [] [] (StackFrame.mk 0 (some 1)),
        ExecutionContext.mk [] [] (StackFrame.mk 0 (some 0))]).stack.trace.frames.head? =
      some (StackFrame.mk 0 (some 1)) :=
  by
    have h := throw_trace_innermost_first
      (Thread.mk [ExecutionContext.mk [] [] (StackFrame.mk 0 (some 1)),
        ExecutionContext.mk [] [] (StackFrame.mk 0 (some 0))])
      (ExecutionContext.mk [] [] (StackFrame.mk 0 (some 1)))
      [ExecutionContext.mk [] [] (StackFrame.mk 0 (some 0))] rfl "t"
    exact ⟨h.1, h.2.1⟩

/-- The data segment of the C1 failing input: a single constant offset 1
and a one-byte payload, so the write range is positions 1 to 2. -/
def segC1 : DataSegment :=
  DataSegment.mk 0 [Instruction.ConstI32 1] [7]

/-- A host holding one registered module env that exports one memory of
current length 2 (arena slot 0). -/
def hostC1 : Host :=
  Host.mk
    [ModuleInst.mk "env" [] [0] [ExportInst.mk "m" (ExternVal.Mem 0)]]
    []
    [MemInst.mk [0, 0] none]

/-- A module importing that memory and carrying the C1 data segment. -/
def modC1 : Module :=
  Module.mk "c" [] [] [] [ImportDecl.mk "env" "m"] [] [segC1]

/-- C1 (failing input): the segment writes range 1 to 2 of a memory of
current length 2, which lies within the memory, yet Host::instantiate
rejects the module with InvalidModule, because the bounds check of
Host::instantiate_data compares offset + end (not end) against the
memory length.  For contrast, the final conjunct shows a segment the
check does accept having its payload copied verbatim. -/
theorem data_bounds_check_rejects_in_range_segment :
    i32AsUsize 1 + segC1.init.length ≤ 2 ∧
    hostC1.instantiate modC1 = IRes.err Error.InvalidModule hostC1 ∧
    dataStep [MemInst.mk [9, 9, 9] none] [0]
        (DataSegment.mk 0 [Instruction.ConstI32 0] [1, 2]) =
      DRes.ok [MemInst.mk [1, 2, 9] none] := by
  refine ⟨by decide, rfl, by decide⟩

/-- A structurally well-formed module whose only export is a function
export with index 0 while the module has no functions at all. -/
def modExportOOB : Module :=
  Module.mk "a" [] [] [] [] [Export.mk "f" (MemberDesc.Function 0)] []

/-- A structurally well-formed module with no imports whose data segment
targets memory index 0; its only memory comes from its own memory
export, which is allocated only after data instantiation. -/
def modDataOwnMem : Module :=
  Module.mk "b" [] [] [] []
    [Export.mk "m" (MemberDesc.Memory (MemoryType.mk 0 none))]
    [DataSegment.mk 0 [Instruction.ConstI32 0] []]

/-- C10: Host::instantiate panics rather than returning an Error on some
well-formed modules: a function export is resolved by unchecked indexing
into the instance function table, and a data segment's memory index is
resolved by unchecked indexing into the import-resolved memory table
only, so a data segment targeting the module's own exported memory
panics. -/
theorem instantiate_panics_on_unchecked_indexing :
    Host.new.instantiate modExportOOB = IRes.panics ∧
    Host.new.instantiate modDataOwnMem = IRes.panics :=
  ⟨rfl, rfl⟩

/-- The host of the C2 failing inputs: one Local function declaring no
parameters and one i32 result, with an empty body. -/
def hostC2 : Host :=
  Host.mk []
    [FuncInst.mk (FuncType.mk [] [ValType.I32]) 0
      (FuncImpl.Local (FuncCode.mk [] []) 0)]
    []

/-- C2 (failing inputs): frame-entering operations of the Thread do NOT
exit their frame on every return path.  First conjunct: Thread::eval on a
thread with an empty stack and an expression with no instructions enters
a frame, the run succeeds, the result pop underflows, and the early
return skips the frame exit, so eval returns a Trap with the frame count
one higher than before the call (1 versus 0).  Remaining conjuncts:
Thread::invoke of a Local function declaring one result whose body
leaves nothing on the callee stack traps while popping the result and
returns without exiting the callee frame, leaving 3 frames where there
were 2. -/
theorem frame_leak_on_early_return :
    (evalF 5 Host.new (Thread.mk []) 0 (Expr.mk []) =
      ERes.out
        (Except.error (Trap.mk "Stack underflow!"
          (some (StackTrace.mk [StackFrame.mk 0 none]))))
        (Thread.mk [ExecutionContext.mk [] [] (StackFrame.mk 0 none)]) ∧
      (1 : Nat) ≠ 0) ∧
    (invokeF 3 hostC2
        (Thread.mk [ExecutionContext.mk [] [] (StackFrame.mk 0 none),
          ExecutionContext.mk [] [] (StackFrame.mk 0 none)]) 0 =
      ERes.out
        (Except.error (Trap.mk "Stack underflow!"
          (some (StackTrace.mk [StackFrame.mk 0 (some 0),
            StackFrame.mk 0 none, StackFrame.mk 0 none]))))
        (Thread.mk [ExecutionContext.mk [] [] (StackFrame.mk 0 (some 0)),
          ExecutionContext.mk [] [] (StackFrame.mk 0 none),
          ExecutionContext.mk [] [] (StackFrame.mk 0 none)]) ∧
      (3 : Nat) ≠ 2) := by
  exact ⟨⟨by decide, by decide⟩, ⟨by decide, by decide⟩⟩

/-- C3 (counterexample): in Thread::call the first-declared argument
expression is evaluated LAST, so its value ends on TOP of the
intermediate frame's operand stack, not deepest.  With argument
expressions pushing 1 and 2 in declaration order, the operand stack
after the argument phase (top first) is 1 then 2; the claim predicts 2
then 1. -/
theorem call_arg_order_counterexample :
    evalArgsF 9 Host.new
        (Thread.mk [ExecutionContext.mk [] [] (StackFrame.mk 0 none)])
        [Expr.mk [Instruction.Const (Value.I32 1)],
          Expr.mk [Instruction.Const (Value.I32 2)]] =
      ERes.out (Except.ok ())
        (Thread.mk [ExecutionContext.mk [Value.I32 1, Value.I32 2] []
          (StackFrame.mk 0 none)]) ∧
    [Value.I32 1, Value.I32 2] ≠ [Value.I32 2, Value.I32 1] := by
  exact ⟨by decide, by decide⟩

lemma evalArgsGo_consts (vs : List Value) (fuel : Nat) (h : Host)
    (w l : List Value) (f : StackFrame) (cs : List ExecutionContext)
    (hnil : ∀ v ∈ vs, v ≠ Value.Nil) :
    evalArgsGo (fuel + 1) h
        (Thread.mk (ExecutionContext.mk w l f :: cs))
        (vs.map (fun v => Expr.mk [Instruction.Const v])) =
      ERes.out (Except.ok ())
        (Thread.mk (ExecutionContext.mk (vs.reverse ++ w) l f :: cs)) := by
  induction vs generalizing w with
  | nil => simp [evalArgsGo]
  | cons v vs ih =>
    have hv : v ≠ Value.Nil := hnil v (by simp)
    have hrest : ∀ x ∈ vs, x ≠ Value.Nil := fun x hx => hnil x (by simp [hx])
    have hstep :
        evalArgsGo (fuel + 1) h
            (Thread.mk (ExecutionContext.mk w l f :: cs))
            ((v :: vs).map (fun x => Expr.mk [Instruction.Const x])) =
          evalArgsGo (fuel + 1) h
            (Thread.mk (ExecutionContext.mk (v :: w) l f :: cs))
            (vs.map (fun x => Expr.mk [Instruction.Const x])) := by
      cases v with
      | Nil => exact absurd rfl hv
      | I32 b => simp [evalArgsGo, runF, execF, Thread.pushV, ExecutionContext.push]
      | I64 b => simp [evalArgsGo, runF, execF, Thread.pushV, ExecutionContext.push]
      | F32 b => simp [evalArgsGo, runF, execF, Thread.pushV, ExecutionContext.push]
      | F64 b => simp [evalArgsGo, runF, execF, Thread.pushV, ExecutionContext.push]
    rw [hstep, ih (v :: w) hrest]
    simp [List.append_assoc]

/-- C3 (amended): Thread::call evaluates the argument expressions in
reverse declaration order, with the consequence that the LAST-declared
argument's value lies deepest on the intermediate frame's operand stack
and the FIRST-declared argument's value lies on top (which the invoke
parameter loop, popping most-recently-pushed first, binds to the first
declared parameter).  Stated for argument expressions that are single
non-Nil constants: after the argument phase the operand stack, top
first, lists the argument values in declaration order. -/
theorem call_args_reverse_eval_first_arg_on_top (fuel : Nat) (h : Host)
    (vals w l : List Value) (f : StackFrame) (cs : List ExecutionContext)
    (hnil : ∀ v ∈ vals, v ≠ Value.Nil) :
    evalArgsF (fuel + 1) h (Thread.mk (ExecutionContext.mk w l f :: cs))
        (vals.map (fun v => Expr.mk [Instruction.Const v])) =
      ERes.out (Except.ok ())
        (Thread.mk (ExecutionContext.mk (vals ++ w) l f :: cs)) := by
  unfold evalArgsF
  rw [← List.map_reverse]
  rw [evalArgsGo_consts vals.reverse fuel h w l f cs
    (fun v hv => hnil v (List.mem_reverse.mp hv))]
  simp

/-- Witness for the amended C3: argument expressions pushing 1 and 2 in
declaration order leave, before invoke runs, the first-declared value 1
on top and the last-declared value 2 deepest. -/
theorem call_args_reverse_eval_first_arg_on_top_witness :
    evalArgsF 9 Host.new
        (Thread.mk [ExecutionContext.mk [] [] (StackFrame.mk 0 none)])
        [Expr.mk [Instruction.Const (Value.I32 1)],
          Expr.mk [Instruction.Const (Value.I32 2)]] =
      ERes.out (Except.ok ())
        (Thread.mk [ExecutionContext.mk [Value.I32 1, Value.I32 2] []
          (StackFrame.mk 0 none)]) :=
  call_args_reverse_eval_first_arg_on_top 8 Host.new
    [Value.I32 1, Value.I32 2] [] [] (StackFrame.mk 0 none) []
    (by decide)

/-- A data segment is well formed for a memory arena and an address
table when its offset expression is a single constant i32 and its memory
index resolves through the address table to an existing arena slot. -/
def SegWF (hm : List MemInst) (addrs : List Nat) (s : DataSegment) : Prop :=
  (∃ v, s.expr = [Instruction.ConstI32 v]) ∧
  (∃ a mem, addrs[s.index]? = some a ∧ hm[a]? = some mem)

/-- The current length of the memory a segment targets, when the target
resolves. -/
def targetLen (hm : List MemInst) (addrs : List Nat) (s : DataSegment) :
    Option Nat :=
  (addrs[s.index]?.bind (fun a => hm[a]?)).map (fun mem => mem.data.length)

/-- The write offset of a segment whose offset expression is a single
constant i32. -/
def segOffset (s : DataSegment) : Nat :=
  match s.expr with
  | [Instruction.ConstI32 v] => i32AsUsize v
  | _ => 0

/-- The lengths of the memories in an arena. -/
def memLens (hm : List MemInst) : List Nat :=
  hm.map (fun m => m.data.length)

lemma writeBytes_length (d : List Nat) (off : Nat) (init : List Nat)
    (hle : off + init.length ≤ d.length) :
    (writeBytes d off init).length = d.length := by
  simp [writeBytes]
  omega

lemma memLens_set (hm : List MemInst) (a : Nat) (m mem : MemInst)
    (hget : hm[a]? = some mem) (hlen : m.data.length = mem.data.length) :
    memLens (hm.set a m) = memLens hm := by
  apply List.ext_getElem?
  intro i
  simp only [memLens, List.getElem?_map]
  by_cases hia : a = i
  · subst hia
    have hlt : a < hm.length := (List.getElem?_eq_some.mp hget).1
    rw [List.getElem?_set_self (by simpa using hlt), hget]
    simp [hlen]
  · rw [List.getElem?_set_ne hia]

lemma memLens_getElem?_map (hm hm' : List MemInst)
    (hlens : memLens hm' = memLens hm) (a : Nat) :
    (hm'[a]?).map (fun m => m.data.length) =
      (hm[a]?).map (fun m => m.data.length) := by
  have := congrArg (fun l => l[a]?) hlens
  simpa [memLens, List.getElem?_map] using this

lemma targetLen_congr (hm hm' : List MemInst) (addrs : List Nat)
    (s : DataSegment) (hlens : memLens hm' = memLens hm) :
    targetLen hm' addrs s = targetLen hm addrs s := by
  unfold targetLen
  cases haddr : addrs[s.index]? with
  | none => rfl
  | some a =>
    simp only [Option.some_bind]
    exact memLens_getElem?_map hm hm' hlens a

lemma SegWF_congr (hm hm' : List MemInst) (addrs : List Nat)
    (s : DataSegment) (hlens : memLens hm' = memLens hm)
    (hwf : SegWF hm addrs s) : SegWF hm' addrs s := by
  obtain ⟨hconst, a, mem, ha, hmem⟩ := hwf
  refine ⟨hconst, a, ?_⟩
  have hmap := memLens_getElem?_map hm hm' hlens a
  rw [hmem] at hmap
  cases hget' : hm'[a]? with
  | none => rw [hget'] at hmap; simp at hmap
  | some mem' => exact ⟨mem', ha, rfl⟩

lemma dataStep_cases (hm : List MemInst) (addrs : List Nat)
    (s : DataSegment) (hwf : SegWF hm addrs s) :
    (∃ hm', dataStep hm addrs s = DRes.ok hm' ∧ memLens hm' = memLens hm) ∨
    dataStep hm addrs s = DRes.err Error.InvalidModule hm := by
  obtain ⟨⟨v, hexpr⟩, a, mem, ha, hmem⟩ := hwf
  unfold dataStep
  by_cases hcond :
      i32AsUsize v + (i32AsUsize v + s.init.length) > mem.data.length
  · right
    simp only [hexpr, ha, hmem]
    simp [hcond]
  · left
    refine ⟨hm.set a
      (MemInst.mk (writeBytes mem.data (i32AsUsize v) s.init) mem.max),
      ?_, ?_⟩
    · simp only [hexpr, ha, hmem]
      simp [hcond]
    · exact memLens_set hm a _ mem hmem
        (writeBytes_length mem.data (i32AsUsize v) s.init (by omega))

lemma dataStep_violation (hm : List MemInst) (addrs : List Nat)
    (s : DataSegment) (L : Nat)
    (hconst : ∃ v, s.expr = [Instruction.ConstI32 v])
    (hL : targetLen hm addrs s = some L)
    (hviol : segOffset s + s.init.length > L) :
    dataStep hm addrs s = DRes.err Error.InvalidModule hm := by
  obtain ⟨v, hexpr⟩ := hconst
  have hoff : segOffset s = i32AsUsize v := by simp [segOffset, hexpr]
  unfold targetLen at hL
  cases haddr : addrs[s.index]? with
  | none => simp [haddr] at hL
  | some a =>
    cases hget : hm[a]? with
    | none => simp [haddr, hget] at hL
    | some mem =>
      simp only [haddr, hget, Option.some_bind, Option.map_some',
        Option.some.injEq] at hL
      unfold dataStep
      simp only [hexpr, haddr, hget]
      rw [if_pos (by rw [hoff] at hviol; rw [hL]; omega)]

lemma instantiate_data_violation (segs : List DataSegment)
    (hm : List MemInst) (addrs : List Nat) (s : DataSegment) (L : Nat)
    (hwf : ∀ x ∈ segs, SegWF hm addrs x) (hs : s ∈ segs)
    (hL : targetLen hm addrs s = some L)
    (hviol : segOffset s + s.init.length > L) :
    ∃ cur, instantiate_data hm addrs segs =
      DRes.err Error.InvalidModule cur := by
  induction segs generalizing hm with
  | nil => cases hs
  | cons x rest ih =>
    have hwfx : SegWF hm addrs x := hwf x (by simp)
    rcases dataStep_cases hm addrs x hwfx with ⟨hm', hok, hlens⟩ | herr
    · rcases List.mem_cons.mp hs with rfl | hsrest
      · have hstep := dataStep_violation hm addrs s L hwfx.1 hL hviol
        rw [hstep] at hok
        cases hok
      · unfold instantiate_data
        rw [hok]
        exact ih hm'
          (fun y hy => SegWF_congr hm hm' addrs y hlens (hwf y (by simp [hy])))
          hsrest
          ((targetLen_congr hm hm' addrs s hlens).trans hL)
    · unfold instantiate_data
      rw [herr]
      exact ⟨hm, rfl⟩

/-- C4: when a data segment with a single constant-i32 offset and a
resolving memory index has its computed end beyond the target memory's
current length, Host::instantiate fails with InvalidModule (given
that import resolution and function instantiation succeed and every segment
in the module is well formed, so that no earlier segment panics) and the
failing segment writes nothing: on any memory arena in which its target
still has the same current length, the step for that segment returns
InvalidModule with the arena unchanged. -/
theorem data_segment_exceeding_memory_fails_invalid_module
    (h : Host) (m : Module) (fs ms lfs : List Nat) (h₁ : Host)
    (s : DataSegment) (L : Nat)
    (hres : h.resolve_imports m.imports = HRes.ok (fs, ms))
    (hfn : h.instantiate_funcs h.modules.length m.types m.funcs m.code =
      some (lfs, h₁))
    (hwf : ∀ x ∈ m.data, SegWF h₁.mems ms x)
    (hs : s ∈ m.data)
    (hL : targetLen h₁.mems ms s = some L)
    (hviol : segOffset s + s.init.length > L) :
    (∃ h', h.instantiate m = IRes.err Error.InvalidModule h') ∧
    (∀ hm₂, targetLen hm₂ ms s = some L →
      dataStep hm₂ ms s = DRes.err Error.InvalidModule hm₂) := by
  constructor
  · obtain ⟨cur, hcur⟩ :=
      instantiate_data_violation m.data h₁.mems ms s L hwf hs hL hviol
    refine ⟨Host.mk h₁.modules h₁.funcs cur, ?_⟩
    simp only [Host.instantiate, hres, hfn, hcur]
  · intro hm₂ hL₂
    exact dataStep_violation hm₂ ms s L (hwf s hs).1 hL₂ hviol

/-- The host and module of the C4 witness: a registered env module
exporting a memory of current length 2, and a module importing it with a
data segment writing three bytes at offset zero. -/
def hostC4 : Host :=
  Host.mk
    [ModuleInst.mk "env" [] [0] [ExportInst.mk "m" (ExternVal.Mem 0)]]
    []
    [MemInst.mk [0, 0] none]

def segC4 : DataSegment :=
  DataSegment.mk 0 [Instruction.ConstI32 0] [1, 2, 3]

def modC4 : Module :=
  Module.mk "c" [] [] [] [ImportDecl.mk "env" "m"] [] [segC4]

/-- Witness for C4: the segment writing bytes 1,2,3 at offset 0 into a
memory of current length 2 makes instantiation fail with InvalidModule,
and its step never changes the memory arena. -/
theorem data_segment_exceeding_memory_fails_witness :
    (∃ h', hostC4.instantiate modC4 = IRes.err Error.InvalidModule h') ∧
    dataStep [MemInst.mk [0, 0] none] [0] segC4 =
      DRes.err Error.InvalidModule [MemInst.mk [0, 0] none] := by
  have h := data_segment_exceeding_memory_fails_invalid_module
    hostC4 modC4 [] [0] [] hostC4 segC4 2 rfl rfl
    (by
      intro x hx
      simp only [modC4, List.mem_singleton] at hx
      subst hx
      exact ⟨⟨0, rfl⟩, 0, MemInst.mk [0, 0] none, rfl, rfl⟩)
    (by simp [modC4])
    rfl
    (by decide)
  exact ⟨h.1, h.2 [MemInst.mk [0, 0] none] rfl⟩

/-- An import resolves against a host when a registered module with its
exact source name exists and that module has an export with
the import's item name. -/
def resolvesImp (h : Host) (i : ImportDecl) : Prop :=
  ∃ maddr minst e, h.find_module i.module = some maddr ∧
    h.modules[maddr]? = some minst ∧ minst.find_export i.name = some e

lemma resolve_imports_append_err (h : Host) (pre tail : List ImportDecl)
    (e : Error) (hpre : ∀ i ∈ pre, resolvesImp h i)
    (htail : h.resolve_imports tail = HRes.err e) :
    h.resolve_imports (pre ++ tail) = HRes.err e := by
  induction pre with
  | nil => simpa using htail
  | cons i rest ih =>
    obtain ⟨maddr, minst, ex, hfind, hmod, hexp⟩ := hpre i (by simp)
    have hrest := ih (fun j hj => hpre j (by simp [hj]))
    simp only [List.cons_append, Host.resolve_imports, hfind, hmod, hexp,
      List.append_eq, hrest]

/-- C5 (amended): when the first import that fails to resolve names an
unregistered module, Host::instantiate returns ModuleNotFound carrying
exactly that name; when it names a registered module that lacks the
export, instantiate returns ExportNotFound carrying the found module's
name and the import name.  In both cases the returned host is the input
host: the failure happens before any module, function or memory instance
is appended to the arenas. -/
theorem import_resolution_failure_leaves_host_unchanged
    (h : Host) (m : Module) (pre post : List ImportDecl)
    (imp : ImportDecl) (him : m.imports = pre ++ imp :: post)
    (hpre : ∀ i ∈ pre, resolvesImp h i) :
    (h.find_module imp.module = none →
      h.instantiate m = IRes.err (Error.ModuleNotFound imp.module) h) ∧
    (∀ maddr minst, h.find_module imp.module = some maddr →
      h.modules[maddr]? = some minst →
      minst.find_export imp.name = none →
      h.instantiate m =
        IRes.err (Error.ExportNotFound minst.name imp.name) h) := by
  constructor
  · intro hnone
    have hhead : h.resolve_imports (imp :: post) =
        HRes.err (Error.ModuleNotFound imp.module) := by
      simp only [Host.resolve_imports, hnone]
    have hall := resolve_imports_append_err h pre (imp :: post) _ hpre hhead
    simp only [Host.instantiate, him, hall]
  · intro maddr minst hfind hmod hexp
    have hhead : h.resolve_imports (imp :: post) =
        HRes.err (Error.ExportNotFound minst.name imp.name) := by
      simp only [Host.resolve_imports, hfind, hmod, hexp]
    have hall := resolve_imports_append_err h pre (imp :: post) _ hpre hhead
    simp only [Host.instantiate, him, hall]

/-- The host of the C5 counterexample: one registered module named m
with no exports. -/
def hostC5 : Host :=
  Host.mk [ModuleInst.mk "m" [] [] []] [] []

/-- The module of the C5 counterexample: its first import names the
registered module m but an absent export x; its second import names the
unregistered module missing. -/
def modC5 : Module :=
  Module.mk "x" [] [] [] [ImportDecl.mk "m" "x", ImportDecl.mk "missing" "y"]
    [] []

/-- C5 (counterexample): modC5 has an import naming a module that is not
present in the registry, yet Host::instantiate does not return
ModuleNotFound for it: the earlier import fails first and the call
returns ExportNotFound.  Failures report the FIRST unresolvable import,
not an arbitrary one. -/
theorem import_error_first_failure_counterexample :
    hostC5.instantiate modC5 =
      IRes.err (Error.ExportNotFound "m" "x") hostC5 ∧
    hostC5.find_module "missing" = none ∧
    ImportDecl.mk "missing" "y" ∈ modC5.imports ∧
    (∀ h', hostC5.instantiate modC5 ≠
      IRes.err (Error.ModuleNotFound "missing") h') := by
  refine ⟨rfl, by decide, by decide, ?_⟩
  intro h' hc
  have hc2 : IRes.err (Error.ExportNotFound "m" "x") hostC5 =
      IRes.err (Error.ModuleNotFound "missing") h' := hc
  injection hc2 with h1 h2
  exact Error.noConfusion h1

/-- Witness for the amended C5: instantiating a module whose one and
only import names an unregistered module, against an empty host, fails with
ModuleNotFound carrying that name and leaves the host unchanged. -/
theorem import_resolution_failure_witness :
    Host.new.instantiate
        (Module.mk "w" [] [] [] [ImportDecl.mk "missing" "y"] [] []) =
      IRes.err (Error.ModuleNotFound "missing") Host.new :=
  (import_resolution_failure_leaves_host_unchanged Host.new
      (Module.mk "w" [] [] [] [ImportDecl.mk "missing" "y"] [] [])
      [] [] (ImportDecl.mk "missing" "y") rfl
      (by intro i hi; cases hi)).1 rfl

lemma popTyped_ok (vals : List Value) (more l : List Value)
    (f : StackFrame) (cs : List ExecutionContext) :
    popTyped (vals.map Value.typ)
        (Thread.mk (ExecutionContext.mk (vals ++ more) l f :: cs)) =
      PopRes.popped vals
        (Thread.mk (ExecutionContext.mk more l f :: cs)) := by
  induction vals with
  | nil => simp [popTyped]
  | cons v vs ih =>
    simp only [List.map_cons, List.cons_append, popTyped, List.append_eq,
      if_true]
    rw [ih]

lemma popTyped_mismatch (vals : List Value) (p : ValType)
    (moreTys : List ValType) (v : Value) (moreVals l : List Value)
    (f : StackFrame) (cs : List ExecutionContext) (hv : v.typ ≠ p) :
    popTyped (vals.map Value.typ ++ p :: moreTys)
        (Thread.mk (ExecutionContext.mk (vals ++ v :: moreVals) l f :: cs)) =
      PopRes.trapped
        (Trap.mk (typeMismatchMsg p v.typ)
          (some (StackTrace.mk (f :: cs.map ExecutionContext.frame))))
        (Thread.mk (ExecutionContext.mk moreVals l f :: cs)) := by
  induction vals with
  | nil =>
    simp only [List.map_nil, List.nil_append, popTyped]
    rw [if_neg hv]
    simp [Thread.throw, ExecutionStack.trace]
  | cons w ws ih =>
    simp only [List.map_cons, List.cons_append, popTyped, List.append_eq,
      if_true]
    rw [ih]

lemma popTyped_underflow (vals : List Value) (p : ValType)
    (moreTys : List ValType) (l : List Value) (f : StackFrame)
    (cs : List ExecutionContext) :
    popTyped (vals.map Value.typ ++ p :: moreTys)
        (Thread.mk (ExecutionContext.mk vals l f :: cs)) =
      PopRes.trapped
        (Trap.mk "Stack underflow!"
          (some (StackTrace.mk (f :: cs.map ExecutionContext.frame))))
        (Thread.mk (ExecutionContext.mk [] l f :: cs)) := by
  induction vals with
  | nil =>
    simp only [List.map_nil, List.nil_append, popTyped]
    simp [Thread.throw, ExecutionStack.trace]
  | cons w ws ih =>
    simp only [List.map_cons, List.cons_append, popTyped, List.append_eq,
      if_true]
    rw [ih]

/-- C6: invoking a Local function pops exactly one operand per declared
parameter from the current frame, most recently pushed first, checking
each popped value against the declared parameter type.  After a prefix of
well-typed pops, a value of the wrong type makes invoke return a trap
whose message reports the declared type as expected and the value's type
as actual; an exhausted operand stack makes invoke return the stack
underflow trap; and when every parameter matches, the pop loop removes
exactly the corresponding prefix of the operand stack, binding the
popped values in parameter order. -/
theorem invoke_param_popping_type_and_underflow_traps
    (fuel : Nat) (h : Host) (fa : Nat) (fi : FuncInst) (code : FuncCode)
    (md : Nat) (goodVals l : List Value) (f : StackFrame)
    (cs : List ExecutionContext)
    (hf : h.funcs[fa]? = some fi)
    (himp : fi.imp = FuncImpl.Local code md) :
    (∀ (p : ValType) (moreTys : List ValType) (v : Value)
        (moreVals : List Value),
      fi.typ.params = goodVals.map Value.typ ++ p :: moreTys →
      v.typ ≠ p →
      invokeF (fuel + 1) h
          (Thread.mk
            (ExecutionContext.mk (goodVals ++ v :: moreVals) l f :: cs)) fa =
        ERes.out
          (Except.error (Trap.mk (typeMismatchMsg p v.typ)
            (some (StackTrace.mk (f :: cs.map ExecutionContext.frame)))))
          (Thread.mk (ExecutionContext.mk moreVals l f :: cs))) ∧
    (∀ (p : ValType) (moreTys : List ValType),
      fi.typ.params = goodVals.map Value.typ ++ p :: moreTys →
      invokeF (fuel + 1) h
          (Thread.mk (ExecutionContext.mk goodVals l f :: cs)) fa =
        ERes.out
          (Except.error (Trap.mk "Stack underflow!"
            (some (StackTrace.mk (f :: cs.map ExecutionContext.frame)))))
          (Thread.mk (ExecutionContext.mk [] l f :: cs))) ∧
    (∀ (moreVals : List Value),
      fi.typ.params = goodVals.map Value.typ →
      popTyped fi.typ.params
          (Thread.mk
            (ExecutionContext.mk (goodVals ++ moreVals) l f :: cs)) =
        PopRes.popped goodVals
          (Thread.mk (ExecutionContext.mk moreVals l f :: cs))) := by
  refine ⟨?_, ?_, ?_⟩
  · intro p moreTys v moreVals hpar hv
    simp only [invokeF, hf, himp]
    rw [hpar, popTyped_mismatch goodVals p moreTys v moreVals l f cs hv]
  · intro p moreTys hpar
    simp only [invokeF, hf, himp]
    rw [hpar, popTyped_underflow goodVals p moreTys l f cs]
  · intro moreVals hpar
    rw [hpar, popTyped_ok goodVals moreVals l f cs]

/-- The host of the C6 witness: one Local function of type i32 to
nothing, with no locals and an empty body. -/
def hostC6 : Host :=
  Host.mk []
    [FuncInst.mk (FuncType.mk [ValType.I32] []) 0
      (FuncImpl.Local (FuncCode.mk [] []) 0)]
    []

/-- Witness for C6: invoking that function with an F32 on top of the
caller's operand stack returns the trap with message Type mismatch.
Expected: i32, Actual: f32. -/
theorem invoke_param_popping_witness :
    invokeF 3 hostC6
        (Thread.mk [ExecutionContext.mk [Value.F32 0] []
          (StackFrame.mk 0 none)]) 0 =
      ERes.out
        (Except.error (Trap.mk "Type mismatch. Expected: i32, Actual: f32"
          (some (StackTrace.mk [StackFrame.mk 0 none]))))
        (Thread.mk [ExecutionContext.mk [] [] (StackFrame.mk 0 none)]) :=
  (invoke_param_popping_type_and_underflow_traps 2 hostC6 0
      (FuncInst.mk (FuncType.mk [ValType.I32] []) 0
        (FuncImpl.Local (FuncCode.mk [] []) 0))
      (FuncCode.mk [] []) 0 [] [] (StackFrame.mk 0 none) []
      rfl rfl).1 ValType.I32 [] (Value.F32 0) [] rfl (by decide)

end Warthog
